import Mathlib

/-! pkg/cronjob: create-or-update from a YAML/JSON stream

A shallow embedding of `createOrUpdateFromReader` and `CreateOrUpdateCronJobByYAML`
(`pkg/cronjob/cronjob.go`).  The cluster client, the discovery client, the stream
decoder and the poller are external collaborators: the client is a state machine
over an arbitrary state `σ`, the stream is the list of results of successive
`Decode` calls, and the poller is given the number of ticks its channel delivers
before the deadline closes it.  Every call to a collaborator is recorded, with its
answer, in a trace of events.
-/

namespace cronjob

/-! ## Data model -/

/-- The reason carried by an API status error (`metav1.StatusReason`). -/
inductive StatusReason where
  | NotFound
  | Forbidden
  | AlreadyExists
  | Conflict
  | Timeout
  | Unknown
  deriving DecidableEq, Repr

/-- Go error values the program handles. -/
inductive Err where
  /-- an API status error, as produced by the cluster client -/
  | status (reason : StatusReason) (message : String)
  /-- a plain error built by `errors.New` or `fmt.Errorf` -/
  | text (message : String)
  /-- the sentinel `io.EOF` -/
  | EOF
  /-- the sentinel `wait.ErrWaitTimeout` -/
  | ErrWaitTimeout
  deriving DecidableEq, Repr

/-- The text of an error: `err.Error()`, which `%v` prints. -/
def Err.Error : Err → String
  | .status _ m => m
  | .text m => m
  | .EOF => "EOF"
  | .ErrWaitTimeout => "timed out waiting for the condition"

/-- The test `kapierrors.IsNotFound`. -/
def IsNotFound : Err → Bool
  | .status .NotFound _ => true
  | _ => false

/-- The test `kapierrors.IsForbidden`. -/
def IsForbidden : Err → Bool
  | .status .Forbidden _ => true
  | _ => false

/-- An `unstructured.Unstructured` object: its attribute tree flattened to
path/value pairs; the first pair with a given path is the one in force. -/
abbrev Obj := List (String × String)

instance instDecidableEqObj : DecidableEq Obj := inferInstance

/-- The value at a path, `""` when absent (`NestedString`). -/
def Obj.field (o : Obj) (path : String) : String :=
  (o.lookup path).getD ""

def Obj.GetKind (o : Obj) : String := o.field "kind"

def Obj.GetAPIVersion (o : Obj) : String := o.field "apiVersion"

def Obj.GetNamespace (o : Obj) : String := o.field "metadata.namespace"

def Obj.GetName (o : Obj) : String := o.field "metadata.name"

def Obj.GetResourceVersion (o : Obj) : String := o.field "metadata.resourceVersion"

/-- The method `SetResourceVersion`: an empty version removes the field. -/
def Obj.SetResourceVersion (o : Obj) (version : String) : Obj :=
  if version = "" then o.filter (fun kv => kv.1 ≠ "metadata.resourceVersion")
  else ("metadata.resourceVersion", version) :: o.filter (fun kv => kv.1 ≠ "metadata.resourceVersion")

/-- The method `MarshalJSON`.  The payload is the object itself; an attribute tree of
strings always encodes, so the error result is never produced here. -/
def Obj.MarshalJSON (o : Obj) : Except Err Obj := .ok o

/-- A `schema.GroupVersionKind`; the apiVersion is kept as written (group/version). -/
structure GroupVersionKind where
  APIVersion : String
  Kind : String
  deriving DecidableEq, Repr

def Obj.GroupVersionKind (o : Obj) : GroupVersionKind := ⟨o.GetAPIVersion, o.GetKind⟩

/-- A `schema.GroupVersionResource`. -/
structure GroupVersionResource where
  Group : String
  Version : String
  Resource : String
  deriving DecidableEq, Repr

/-- The optional transform `func(oldObj, newObj) *Unstructured`; `oldObj` is `none`
for the `nil` passed on creation.  A transform is taken to return an object, not a
nil pointer. -/
abbrev Transform := Option (Option Obj → Obj → Obj)

/-- The step `if transform != nil { obj = transform(old, obj.DeepCopy()) }`. -/
def applyTransform (transform : Transform) (old : Option Obj) (obj : Obj) : Obj :=
  match transform with
  | some f => f old obj
  | none => obj

/-- The discovery and dynamic clients, as a state machine over the cluster state `σ`. -/
structure Client (σ : Type) where
  ResourceForGVK : σ → GroupVersionKind → Except Err GroupVersionResource × σ
  Get : σ → GroupVersionResource → (ns name : String) → Except Err Obj × σ
  Create : σ → GroupVersionResource → (ns : String) → (obj : Obj) → Except Err Obj × σ
  Patch : σ → GroupVersionResource → (ns name : String) → (data : Obj) → Except Err Obj × σ

/-- Equality of call results is decidable, so that traces can be compared. -/
instance instDecidableEqExcept {ε α : Type} [DecidableEq ε] [DecidableEq α] :
    DecidableEq (Except ε α)
  | .ok a, .ok b => if h : a = b then isTrue (by rw [h]) else isFalse (fun h2 => h (by cases h2; rfl))
  | .error a, .error b =>
    if h : a = b then isTrue (by rw [h]) else isFalse (fun h2 => h (by cases h2; rfl))
  | .ok _, .error _ => isFalse (fun h => by cases h)
  | .error _, .ok _ => isFalse (fun h => by cases h)

/-- A call to a collaborator, with its arguments and its answer. -/
inductive Event where
  | openFile (path : String)
  | decode (r : Except Err Obj)
  | resolve (gvk : GroupVersionKind) (r : Except Err GroupVersionResource)
  | get (gvr : GroupVersionResource) (ns name : String) (r : Except Err Obj)
  | create (gvr : GroupVersionResource) (ns : String) (obj : Obj) (r : Except Err Obj)
  | patch (gvr : GroupVersionResource) (ns name : String) (data : Obj) (r : Except Err Obj)
  deriving DecidableEq

/-! ## The poller -/

/-- The loop `wait.WaitFor`: one run of the condition per tick of the poller's channel;
when the channel has no tick left the wait ends with `ErrWaitTimeout`. -/
def WaitFor {S : Type} (cond : S → (Bool × Option Err) × S × List Event) :
    Nat → S → Option Err × S × List Event
  | 0, st => (some Err.ErrWaitTimeout, st, [])
  | ticks + 1, st =>
    match cond st with
    | ((_, some err), st1, ev) => (some err, st1, ev)
    | ((true, none), st1, ev) => (none, st1, ev)
    | ((false, none), st1, ev) =>
      match WaitFor cond ticks st1 with
      | (r, st2, ev2) => (r, st2, ev ++ ev2)

/-- The function `wait.PollImmediate(interval, timeout, condition)`: the condition runs
once at once, then once per receive from the poller's channel.  `ticks` stands for
the number of receives the channel gives within `timeout`, the closing one included. -/
def PollImmediate {S : Type} (ticks : Nat) (cond : S → (Bool × Option Err) × S × List Event)
    (st : S) : Option Err × S × List Event :=
  match cond st with
  | ((_, some err), st1, ev) => (some err, st1, ev)
  | ((true, none), st1, ev) => (none, st1, ev)
  | ((false, none), st1, ev) =>
    match WaitFor cond ticks st1 with
    | (r, st2, ev2) => (r, st2, ev ++ ev2)

/-! ## The reconciler -/

/-- The closure handed to `PollImmediate` (cronjob.go lines 60-105).  It captures
`ri` (here `gvr` and the namespace `ns`), `name`, `kind`, and the variable `obj`, which it
reads and rebinds; the state is the cluster state and the current `obj`. -/
def condition {σ : Type} (c : Client σ) (transform : Transform) (gvr : GroupVersionResource)
    (ns name kind : String) (st : σ × Obj) : (Bool × Option Err) × (σ × Obj) × List Event :=
  match c.Get st.1 gvr ns name with
  | (.error err, s1) =>
    if !IsNotFound err then
      ((false, some (Err.text ("failed to retrieve current configuration of the " ++ kind ++ " "
          ++ ns ++ "/" ++ name ++ ": " ++ err.Error))), (s1, st.2),
        [Event.get gvr ns name (.error err)])
    else
      let obj1 := st.2.SetResourceVersion ""
      let obj2 := applyTransform transform none obj1
      match c.Create s1 gvr ns obj2 with
      | (.error err2, s2) =>
        ((false, some err2), (s2, obj2),
          [Event.get gvr ns name (.error err), Event.create gvr ns obj2 (.error err2)])
      | (.ok created, s2) =>
        ((true, none), (s2, obj2),
          [Event.get gvr ns name (.error err), Event.create gvr ns obj2 (.ok created)])
  | (.ok oldObj, s1) =>
    let obj1 := st.2.SetResourceVersion oldObj.GetResourceVersion
    let obj2 := applyTransform transform (some oldObj) obj1
    match obj2.MarshalJSON with
    | .error err => ((false, some err), (s1, obj2), [Event.get gvr ns name (.ok oldObj)])
    | .ok patchData =>
      match c.Patch s1 gvr ns obj2.GetName patchData with
      | (.error err, s2) =>
        if IsForbidden err then
          ((false, none), (s2, obj2),
            [Event.get gvr ns name (.ok oldObj),
             Event.patch gvr ns obj2.GetName patchData (.error err)])
        else
          ((false, some err), (s2, obj2),
            [Event.get gvr ns name (.ok oldObj),
             Event.patch gvr ns obj2.GetName patchData (.error err)])
      | (.ok updated, s2) =>
        ((true, none), (s2, obj2),
          [Event.get gvr ns name (.ok oldObj),
           Event.patch gvr ns obj2.GetName patchData (.ok updated)])

/-- The function `createOrUpdateFromReader`.  The reader is the list of results the
decoder returns, one per `Decode` call, with `io.EOF` once the list is used up.
Returns the error (`none` for `nil`), the final cluster state and the trace. -/
def createOrUpdateFromReader {σ : Type} (c : Client σ) (transform : Transform) (ticks : Nat) :
    List (Except Err Obj) → σ → Option Err × σ × List Event
  | [], s => (none, s, [Event.decode (.error Err.EOF)])
  | .error err :: _, s =>
    if err = Err.EOF then (none, s, [Event.decode (.error err)])
    else (some err, s, [Event.decode (.error err)])
  | .ok obj :: rest, s =>
    match c.ResourceForGVK s obj.GroupVersionKind with
    | (.error err, s1) =>
      (some err, s1, [Event.decode (.ok obj), Event.resolve obj.GroupVersionKind (.error err)])
    | (.ok gvr, s1) =>
      match PollImmediate ticks
          (condition c transform gvr obj.GetNamespace obj.GetName obj.GetKind) (s1, obj) with
      | (some err, st2, ev) =>
        (some err, st2.1,
          Event.decode (.ok obj) :: Event.resolve obj.GroupVersionKind (.ok gvr) :: ev)
      | (none, st2, ev) =>
        match createOrUpdateFromReader c transform ticks rest st2.1 with
        | (r, s3, ev3) =>
          (r, s3, Event.decode (.ok obj) :: Event.resolve obj.GroupVersionKind (.ok gvr) :: (ev ++ ev3))

/-- A manifest file as `os.Open` yields it: `docs` is what a decoder reading the file
returns call by call, `teed` what a decoder reading the tee buffer returns once the
first document has been decoded from the file (the bytes the tee has copied so far). -/
structure File where
  docs : List (Except Err Obj)
  teed : List (Except Err Obj)

/-- The function `CreateOrUpdateCronJobByYAML`; `cli` is `none` for a nil client and
`osOpen` stands for `os.Open`. -/
def CreateOrUpdateCronJobByYAML {σ : Type} (cli : Option (Client σ)) (osOpen : String → Except Err File)
    (ticks : Nat) (filepath : String) (s : σ) : Option Err × σ × List Event :=
  match cli with
  | none => (some (Err.text "client is nil"), s, [])
  | some c =>
    match osOpen filepath with
    | .error err => (some err, s, [Event.openFile filepath])
    | .ok f =>
      let first : Except Err Obj := match f.docs with
        | [] => .error Err.EOF
        | r :: _ => r
      match first with
      | .error err =>
        (some (Err.text ("failed to decode yaml: " ++ err.Error)), s,
          [Event.openFile filepath, Event.decode (.error err)])
      | .ok obj =>
        if obj.GetKind ≠ "CronJob" then
          (some (Err.text ("kind must be cronjob, got: " ++ obj.GetKind)), s,
            [Event.openFile filepath, Event.decode (.ok obj)])
        else
          match createOrUpdateFromReader c none ticks f.teed s with
          | (some err, s1, ev) =>
            (some (Err.text ("failed to create or update cronjob: " ++ err.Error)), s1,
              Event.openFile filepath :: Event.decode (.ok obj) :: ev)
          | (none, s1, ev) => (none, s1, Event.openFile filepath :: Event.decode (.ok obj) :: ev)

/-! ## An in-memory cluster -/

/-- The address of a live object: resource type, namespace, name. -/
abbrev Key := GroupVersionResource × String × String

instance instDecidableEqKey : DecidableEq Key := inferInstance

/-- The state of the in-memory cluster: the live objects by address. -/
abbrev Store := List (Key × Obj)

instance instDecidableEqStore : DecidableEq Store := inferInstance

instance instDecidableEqTrace : DecidableEq (List Event) := inferInstance

/-- Modelled from the spec: the merge-patch of the resource-access capability
("only fields present in the manifest overwrite fields on the live object; omitted
fields are left untouched").  The fields of the payload come first, followed by the
fields of the live object the payload does not mention. -/
def mergePatch (live data : Obj) : Obj :=
  data ++ live.filter (fun kv => (data.lookup kv.1).isNone)

/-- Modelled from the spec: an in-memory resource-access capability with merge-patch
semantics, and a discovery capability given by the table `disc`.  `get` answers
not-found for an absent object, `create` stores the manifest under its name, `patch`
merges the payload into the live object. -/
def memClient (disc : GroupVersionKind → Except Err GroupVersionResource) : Client Store where
  ResourceForGVK := fun s gvk => (disc gvk, s)
  Get := fun s gvr ns name =>
    match s.lookup (gvr, ns, name) with
    | some o => (.ok o, s)
    | none => (.error (Err.status .NotFound ("not found: " ++ name)), s)
  Create := fun s gvr ns obj =>
    match s.lookup (gvr, ns, obj.GetName) with
    | some _ => (.error (Err.status .AlreadyExists ("already exists: " ++ obj.GetName)), s)
    | none => (.ok obj, ((gvr, ns, obj.GetName), obj) :: s)
  Patch := fun s gvr ns name data =>
    match s.lookup (gvr, ns, name) with
    | none => (.error (Err.status .NotFound ("not found: " ++ name)), s)
    | some live =>
      (.ok (mergePatch live data),
        ((gvr, ns, name), mergePatch live data) :: s.filter (fun e => e.1 ≠ (gvr, ns, name)))

/-- A client that answers from a script.  The state counts the `Patch` calls made so
far; `Get` and `Patch` answer by that count, `Create` and discovery always the same. -/
def scriptedClient (disc : GroupVersionKind → Except Err GroupVersionResource)
    (getR : Nat → Except Err Obj) (createR : Except Err Obj) (patchR : Nat → Except Err Obj) :
    Client Nat where
  ResourceForGVK := fun s gvk => (disc gvk, s)
  Get := fun s _ _ _ => (getR s, s)
  Create := fun s _ _ _ => (createR, s)
  Patch := fun s _ _ _ _ => (patchR s, s + 1)

/-! ## Sample data -/

/-- A CronJob manifest that carries a stale resource version. -/
def sampleCronJob : Obj :=
  [("kind", "CronJob"), ("apiVersion", "batch/v1beta1"), ("metadata.namespace", "ops"),
   ("metadata.name", "nightly"), ("metadata.resourceVersion", "99"), ("spec.schedule", "0 3 * * *")]

/-- A manifest of a kind the discovery table does not know. -/
def sampleWidget : Obj :=
  [("kind", "Widget"), ("apiVersion", "example.io/v1"), ("metadata.namespace", "ops"),
   ("metadata.name", "w1")]

def cronJobResource : GroupVersionResource := ⟨"batch", "v1beta1", "cronjobs"⟩

/-- A discovery table that knows the kind CronJob only. -/
def sampleDiscovery (gvk : GroupVersionKind) : Except Err GroupVersionResource :=
  if gvk.Kind = "CronJob" then .ok cronJobResource
  else .error (Err.text ("no matches for kind " ++ gvk.Kind))

/-! ## Reading traces -/

/-- A mutation the cluster accepted: a successful Create or a successful Patch. -/
def Event.isWriteOk : Event → Bool
  | .create _ _ _ (.ok _) => true
  | .patch _ _ _ _ (.ok _) => true
  | _ => false

/-- The events of an attempt that is retried: a Get that found the object, or a Patch
answered with a forbidden error. -/
def Event.isRetry : Event → Bool
  | .get _ _ _ (.ok _) => true
  | .patch _ _ _ _ (.error err) => IsForbidden err
  | _ => false

/-- One manifest reconciled in a single attempt along a run of the client from state
`s` to state `s3`: the client resolves the manifest's kind, and then either finds the
object and accepts the Patch of the manifest (live resource version written on it, then
transformed), or reports not-found and accepts the Create of the manifest (resource
version cleared, then transformed).  `chunk` is the list of these calls with the
client's answers, the decoding of the manifest first. -/
def ReconciledAt {σ : Type} (c : Client σ) (transform : Transform) (m : Obj) (s s3 : σ)
    (chunk : List Event) : Prop :=
  ∃ gvr s1 s2,
    c.ResourceForGVK s m.GroupVersionKind = (.ok gvr, s1) ∧
    ((∃ old updated,
        c.Get s1 gvr m.GetNamespace m.GetName = (.ok old, s2) ∧
        c.Patch s2 gvr m.GetNamespace
          (applyTransform transform (some old) (m.SetResourceVersion old.GetResourceVersion)).GetName
          (applyTransform transform (some old) (m.SetResourceVersion old.GetResourceVersion))
          = (.ok updated, s3) ∧
        chunk = [Event.decode (.ok m), Event.resolve m.GroupVersionKind (.ok gvr),
          Event.get gvr m.GetNamespace m.GetName (.ok old),
          Event.patch gvr m.GetNamespace
            (applyTransform transform (some old)
              (m.SetResourceVersion old.GetResourceVersion)).GetName
            (applyTransform transform (some old) (m.SetResourceVersion old.GetResourceVersion))
            (.ok updated)]) ∨
     (∃ err created,
        c.Get s1 gvr m.GetNamespace m.GetName = (.error err, s2) ∧ IsNotFound err = true ∧
        c.Create s2 gvr m.GetNamespace (applyTransform transform none (m.SetResourceVersion ""))
          = (.ok created, s3) ∧
        chunk = [Event.decode (.ok m), Event.resolve m.GroupVersionKind (.ok gvr),
          Event.get gvr m.GetNamespace m.GetName (.error err),
          Event.create gvr m.GetNamespace (applyTransform transform none (m.SetResourceVersion ""))
            (.ok created)]))

/-- A run of the client along which the manifests are reconciled one after the other,
each in a single attempt, from state `s` to state `s1`; `chunks` holds the calls of
each manifest, in stream order. -/
inductive ReconciledAll {σ : Type} (c : Client σ) (transform : Transform) :
    List Obj → σ → σ → List (List Event) → Prop where
  | nil (s : σ) : ReconciledAll c transform [] s s []
  | cons {m : Obj} {ms : List Obj} {s s1 s2 : σ} {chunk : List Event}
      {chunks : List (List Event)} :
      ReconciledAt c transform m s s1 chunk → ReconciledAll c transform ms s1 s2 chunks →
      ReconciledAll c transform (m :: ms) s s2 (chunk :: chunks)

/-- A transform that overwrites the resource version. -/
def stampVersion : Option Obj → Obj → Obj :=
  fun _ obj => obj.SetResourceVersion "stale"

/-- A live object at resource version 7. -/
def sampleLive : Obj :=
  [("kind", "CronJob"), ("metadata.namespace", "ops"), ("metadata.name", "nightly"),
   ("metadata.resourceVersion", "7"), ("spec.suspend", "true")]

/-- A forbidden answer. -/
def sampleForbidden : Err := Err.status .Forbidden "admission webhook denied the request"


/-- A scripted client whose object is always found and whose first two Patch calls
are refused, the later ones accepted. -/
def forbiddenTwice : Client Nat :=
  scriptedClient sampleDiscovery (fun _ => .ok sampleLive) (.ok [])
    (fun i => if i < 2 then .error sampleForbidden else .ok sampleLive)

/-- A scripted client whose object is always found and whose every Patch is accepted. -/
def alwaysAccepted : Client Nat :=
  scriptedClient sampleDiscovery (fun _ => .ok sampleLive) (.ok []) (fun _ => .ok sampleLive)

/-- A transform that adds a label and leaves the rest of the manifest as it is. -/
def addLabel : Option Obj → Obj → Obj :=
  fun _ obj => ("metadata.labels.managed", "yes") :: obj


/-- The variable `obj` after `i` attempts that found the object: each attempt writes
the live resource version onto the object the previous attempt left and hands the
result to the transform.  `live i` is the object found by attempt `i`. -/
def retried (f : Option Obj → Obj → Obj) (live : Nat → Obj) (m : Obj) : Nat → Obj
  | 0 => m
  | i + 1 =>
    f (some (live i)) ((retried f live m i).SetResourceVersion (live i).GetResourceVersion)

/-- The two calls of attempt `i` on a found object: the Get under the manifest's own
name, and the Patch of the object attempt `i` produced, under that object's name;
`resp i` is the answer to that Patch. -/
def attemptEvents (gvr : GroupVersionResource) (f : Option Obj → Obj → Obj) (live : Nat → Obj)
    (resp : Nat → Except Err Obj) (m : Obj) (i : Nat) : List Event :=
  [Event.get gvr m.GetNamespace m.GetName (.ok (live i)),
   Event.patch gvr m.GetNamespace (retried f live m (i + 1)).GetName (retried f live m (i + 1))
     (resp i)]

/-- The variable `obj` after `i` attempts that found the object, for an optional
transform: each attempt writes the live resource version onto the object the previous
attempt left and then applies the transform, when there is one.  `live i` is the
object found by attempt `i`. -/
def carried (transform : Transform) (live : Nat → Obj) (m : Obj) : Nat → Obj
  | 0 => m
  | i + 1 =>
    applyTransform transform (some (live i))
      ((carried transform live m i).SetResourceVersion (live i).GetResourceVersion)

/-- The two calls of attempt `i` on a found object, for an optional transform: the Get
at the manifest's name, answered `live i`, and the Patch of the object attempt `i`
produced, answered `resp i`. -/
def patchAttempt (gvr : GroupVersionResource) (transform : Transform) (live : Nat → Obj)
    (resp : Nat → Except Err Obj) (m : Obj) (i : Nat) : List Event :=
  [Event.get gvr m.GetNamespace m.GetName (.ok (live i)),
   Event.patch gvr m.GetNamespace (carried transform live m (i + 1)).GetName
     (carried transform live m (i + 1)) (resp i)]

/-- A transform that renames the object: it appends a mark to the name it is given. -/
def renameWithMark : Option Obj → Obj → Obj :=
  fun _ obj => ("metadata.name", obj.GetName ++ "+") :: obj


/-! ## Basic facts -/

theorem lookup_filter_ne (o : Obj) (k : String) :
    (o.filter (fun kv => kv.1 ≠ k)).lookup k = none := by
  induction o with
  | nil => rfl
  | cons kv o ih =>
    obtain ⟨a, b⟩ := kv
    rw [List.filter_cons]
    by_cases h : a = k
    · rw [if_neg (by simpa using h)]; exact ih
    · rw [if_pos (by simpa using h)]
      have hk : (k == a) = false := by
        rw [beq_eq_false_iff_ne]; exact fun h2 => h h2.symm
      rw [List.lookup_cons, hk]; exact ih

theorem lookup_filter_other (o : Obj) (k j : String) (hj : j ≠ k) :
    (o.filter (fun kv => kv.1 ≠ k)).lookup j = o.lookup j := by
  induction o with
  | nil => rfl
  | cons kv o ih =>
    obtain ⟨a, b⟩ := kv
    rw [List.filter_cons]
    by_cases h : a = k
    · rw [if_neg (by simpa using h)]
      have hjk : (j == a) = false := by simpa [h] using hj
      rw [List.lookup_cons, hjk]; exact ih
    · rw [if_pos (by simpa using h), List.lookup_cons, List.lookup_cons, ih]

theorem GetResourceVersion_SetResourceVersion_empty (o : Obj) :
    (o.SetResourceVersion "").GetResourceVersion = "" := by
  have h := lookup_filter_ne o "metadata.resourceVersion"
  simp only [Obj.SetResourceVersion, Obj.GetResourceVersion, Obj.field, if_true, h]
  rfl

theorem GetResourceVersion_SetResourceVersion (o : Obj) (v : String) :
    (o.SetResourceVersion v).GetResourceVersion = v := by
  by_cases h : v = ""
  · subst h; exact GetResourceVersion_SetResourceVersion_empty o
  · simp [Obj.SetResourceVersion, Obj.GetResourceVersion, Obj.field, h, List.lookup]

theorem PollImmediate_eq_WaitFor {S : Type} (ticks : Nat)
    (cond : S → (Bool × Option Err) × S × List Event) (st : S) :
    PollImmediate ticks cond st = WaitFor cond (ticks + 1) st := by
  simp [PollImmediate, WaitFor]

theorem WaitFor_done {S : Type} (cond : S → (Bool × Option Err) × S × List Event) (k : Nat)
    (st st1 : S) (ev : List Event) (h : cond st = ((true, none), st1, ev)) :
    WaitFor cond (k + 1) st = (none, st1, ev) := by
  simp [WaitFor, h]

theorem WaitFor_retry {S : Type} (cond : S → (Bool × Option Err) × S × List Event) (k : Nat)
    (st st1 : S) (ev : List Event) (h : cond st = ((false, none), st1, ev)) :
    WaitFor cond (k + 1) st =
      ((WaitFor cond k st1).1, (WaitFor cond k st1).2.1, ev ++ (WaitFor cond k st1).2.2) := by
  simp [WaitFor, h]

/-- An attempt that finds nothing and creates the object ends the poll with success. -/
theorem condition_create_ok {σ : Type} (c : Client σ) (transform : Transform)
    (gvr : GroupVersionResource) (ns name kind : String) (s s1 s2 : σ) (obj created : Obj) (err : Err)
    (hget : c.Get s gvr ns name = (.error err, s1)) (hnf : IsNotFound err = true)
    (hcreate : c.Create s1 gvr ns (applyTransform transform none (obj.SetResourceVersion ""))
      = (.ok created, s2)) :
    condition c transform gvr ns name kind (s, obj) =
      ((true, none), (s2, applyTransform transform none (obj.SetResourceVersion "")),
        [Event.get gvr ns name (.error err),
         Event.create gvr ns (applyTransform transform none (obj.SetResourceVersion "")) (.ok created)]) := by
  simp [condition, hget, hnf, hcreate]

/-- The stream loop, when the poll for the first manifest ends without error. -/
theorem createOrUpdateFromReader_cons_ok {σ : Type} (c : Client σ) (transform : Transform)
    (ticks : Nat) (obj : Obj) (rest : List (Except Err Obj)) (s s1 : σ) (gvr : GroupVersionResource)
    (st2 : σ × Obj) (ev : List Event)
    (hres : c.ResourceForGVK s obj.GroupVersionKind = (.ok gvr, s1))
    (hpoll : PollImmediate ticks (condition c transform gvr obj.GetNamespace obj.GetName obj.GetKind)
      (s1, obj) = (none, st2, ev)) :
    createOrUpdateFromReader c transform ticks (.ok obj :: rest) s =
      ((createOrUpdateFromReader c transform ticks rest st2.1).1,
       (createOrUpdateFromReader c transform ticks rest st2.1).2.1,
       Event.decode (.ok obj) :: Event.resolve obj.GroupVersionKind (.ok gvr) ::
         (ev ++ (createOrUpdateFromReader c transform ticks rest st2.1).2.2)) := by
  simp [createOrUpdateFromReader, hres, hpoll]

/-- C1: when the fetch of a manifest's object reports not-found and the creation
succeeds, with no transform, the manifest's calls are one resolution, one Get and
exactly one Create (no Patch), after which the rest of the stream is processed from
the state the creation left; the created payload is the manifest with its resource
version cleared, so its resource version is empty whatever the manifest carried. -/
theorem create_when_absent {σ : Type} (c : Client σ) (ticks : Nat) (obj : Obj)
    (rest : List (Except Err Obj)) (s s1 s2 s3 : σ) (gvr : GroupVersionResource) (err : Err)
    (created : Obj)
    (hres : c.ResourceForGVK s obj.GroupVersionKind = (.ok gvr, s1))
    (hget : c.Get s1 gvr obj.GetNamespace obj.GetName = (.error err, s2))
    (hnf : IsNotFound err = true)
    (hcreate : c.Create s2 gvr obj.GetNamespace (obj.SetResourceVersion "") = (.ok created, s3)) :
    createOrUpdateFromReader c none ticks (.ok obj :: rest) s =
      ((createOrUpdateFromReader c none ticks rest s3).1,
       (createOrUpdateFromReader c none ticks rest s3).2.1,
       [Event.decode (.ok obj), Event.resolve obj.GroupVersionKind (.ok gvr),
        Event.get gvr obj.GetNamespace obj.GetName (.error err),
        Event.create gvr obj.GetNamespace (obj.SetResourceVersion "") (.ok created)]
        ++ (createOrUpdateFromReader c none ticks rest s3).2.2)
    ∧ (obj.SetResourceVersion "").GetResourceVersion = "" := by
  refine ⟨?_, GetResourceVersion_SetResourceVersion_empty obj⟩
  have hc := condition_create_ok c none gvr obj.GetNamespace obj.GetName obj.GetKind s1 s2 s3 obj
    created err hget hnf (by simpa [applyTransform] using hcreate)
  have hp : PollImmediate ticks (condition c none gvr obj.GetNamespace obj.GetName obj.GetKind)
      (s1, obj) = (none, (s3, obj.SetResourceVersion ""),
        [Event.get gvr obj.GetNamespace obj.GetName (.error err),
         Event.create gvr obj.GetNamespace (obj.SetResourceVersion "") (.ok created)]) := by
    rw [PollImmediate_eq_WaitFor]
    simpa [applyTransform] using WaitFor_done _ ticks _ _ _ hc
  rw [createOrUpdateFromReader_cons_ok c none ticks obj rest s s1 gvr _ _ hres hp]
  simp

/-- C1 at a concrete input: the sample manifest, which carries resource version 99,
against an empty in-memory cluster. -/
theorem create_when_absent_witness :
    createOrUpdateFromReader (memClient sampleDiscovery) none 3 [.ok sampleCronJob] [] =
      (none, [((cronJobResource, "ops", "nightly"), sampleCronJob.SetResourceVersion "")],
       [Event.decode (.ok sampleCronJob),
        Event.resolve sampleCronJob.GroupVersionKind (.ok cronJobResource),
        Event.get cronJobResource "ops" "nightly" (.error (Err.status .NotFound "not found: nightly")),
        Event.create cronJobResource "ops" (sampleCronJob.SetResourceVersion "")
          (.ok (sampleCronJob.SetResourceVersion "")),
        Event.decode (.error Err.EOF)])
    ∧ (sampleCronJob.SetResourceVersion "").GetResourceVersion = "" := by
  have h := create_when_absent (memClient sampleDiscovery) 3 sampleCronJob [] [] [] []
    [((cronJobResource, "ops", "nightly"), sampleCronJob.SetResourceVersion "")] cronJobResource
    (Err.status .NotFound "not found: nightly") (sampleCronJob.SetResourceVersion "")
    (by decide) (by decide) (by decide) (by decide)
  exact ⟨by rw [h.1]; decide, h.2⟩

/-! ## Sequencing over the stream -/

/-- A run over manifests that ends without error has read the stream to its end, and
the same manifests followed by more input are processed the same way, with the rest
of the input taken up from the state they left. -/
theorem createOrUpdateFromReader_append {σ : Type} (c : Client σ) (transform : Transform)
    (ticks : Nat) (ms : List Obj) :
    ∀ (s s1 : σ) (tr : List Event),
      createOrUpdateFromReader c transform ticks (ms.map Except.ok) s = (none, s1, tr) →
      ∃ tr0, tr = tr0 ++ [Event.decode (.error Err.EOF)] ∧
        ∀ rest, createOrUpdateFromReader c transform ticks (ms.map Except.ok ++ rest) s =
          ((createOrUpdateFromReader c transform ticks rest s1).1,
           (createOrUpdateFromReader c transform ticks rest s1).2.1,
           tr0 ++ (createOrUpdateFromReader c transform ticks rest s1).2.2) := by
  induction ms with
  | nil =>
    intro s s1 tr h
    simp only [List.map_nil, createOrUpdateFromReader, Prod.mk.injEq] at h
    obtain ⟨-, hs, htr⟩ := h
    subst hs
    exact ⟨[], by simp [← htr], by intro rest; simp⟩
  | cons m ms ih =>
    intro s s1 tr h
    simp only [List.map_cons, createOrUpdateFromReader] at h
    rcases hres : c.ResourceForGVK s m.GroupVersionKind with ⟨_ | gvr, sa⟩
    · simp [hres] at h
    · rcases hpoll : PollImmediate ticks
          (condition c transform gvr m.GetNamespace m.GetName m.GetKind) (sa, m) with ⟨_ | err, st2, ev⟩
      · rcases hrec : createOrUpdateFromReader c transform ticks (ms.map Except.ok) st2.1
          with ⟨r, s3, ev3⟩
        simp only [hres, hpoll, hrec, Prod.mk.injEq] at h
        obtain ⟨hr, hs, htr⟩ := h
        subst hr; subst hs
        obtain ⟨tr3, htr3, hrest⟩ := ih st2.1 s3 ev3 hrec
        refine ⟨Event.decode (.ok m) :: Event.resolve m.GroupVersionKind (.ok gvr) :: (ev ++ tr3), ?_, ?_⟩
        · simp [← htr, htr3]
        · intro rest
          simp [createOrUpdateFromReader, hres, hpoll, hrest rest]
      · simp [hres, hpoll] at h

/-! ## Failure of discovery -/

/-- C4: when the manifests before the k-th are reconciled without error and the single
discovery call for the k-th fails, the call returns that discovery error, the trace is
the trace of the earlier manifests followed by the decoding of the k-th and its one
failed resolution (no Get, Create or Patch for it, nothing for the manifests after it),
and the cluster is left in the state the earlier manifests and that call produced. -/
theorem discovery_failure_aborts {σ : Type} (c : Client σ) (transform : Transform) (ticks : Nat)
    (ms : List Obj) (m : Obj) (rest : List (Except Err Obj)) (s s1 s2 : σ) (tr0 : List Event)
    (err : Err)
    (hpre : createOrUpdateFromReader c transform ticks (ms.map Except.ok) s =
      (none, s1, tr0 ++ [Event.decode (.error Err.EOF)]))
    (hres : c.ResourceForGVK s1 m.GroupVersionKind = (.error err, s2)) :
    createOrUpdateFromReader c transform ticks (ms.map Except.ok ++ .ok m :: rest) s =
      (some err, s2,
        tr0 ++ [Event.decode (.ok m), Event.resolve m.GroupVersionKind (.error err)]) := by
  obtain ⟨tr1, htr1, happ⟩ := createOrUpdateFromReader_append c transform ticks ms s s1 _ hpre
  have htr : tr0 = tr1 := List.append_cancel_right htr1
  subst htr
  rw [happ (.ok m :: rest)]
  simp [createOrUpdateFromReader, hres]

/-- C4 at the two-manifest scenario: the first manifest addresses a live object and is
patched, the second is of an unknown kind; one Patch happens and the call fails, the
third document is never decoded. -/
theorem discovery_failure_aborts_witness :
    createOrUpdateFromReader (memClient sampleDiscovery) none 3
        ([sampleCronJob].map Except.ok ++ .ok sampleWidget :: [.ok sampleCronJob])
        [((cronJobResource, "ops", "nightly"), [("metadata.name", "nightly"), ("status", "live")])] =
      (some (Err.text "no matches for kind Widget"),
       [((cronJobResource, "ops", "nightly"),
          mergePatch [("metadata.name", "nightly"), ("status", "live")]
            (sampleCronJob.SetResourceVersion ""))],
       [Event.decode (.ok sampleCronJob),
        Event.resolve sampleCronJob.GroupVersionKind (.ok cronJobResource),
        Event.get cronJobResource "ops" "nightly" (.ok [("metadata.name", "nightly"), ("status", "live")]),
        Event.patch cronJobResource "ops" "nightly" (sampleCronJob.SetResourceVersion "")
          (.ok (mergePatch [("metadata.name", "nightly"), ("status", "live")]
            (sampleCronJob.SetResourceVersion "")))] ++
       [Event.decode (.ok sampleWidget),
        Event.resolve sampleWidget.GroupVersionKind (.error (Err.text "no matches for kind Widget"))]) :=
  discovery_failure_aborts (memClient sampleDiscovery) none 3 [sampleCronJob] sampleWidget
    [.ok sampleCronJob] _
    [((cronJobResource, "ops", "nightly"),
      mergePatch [("metadata.name", "nightly"), ("status", "live")]
        (sampleCronJob.SetResourceVersion ""))] _ _ _ (by decide) (by decide)

/-! ## The apply command -/

/-- C8: a file that opens and whose first document decodes with a kind other than the
exact string CronJob makes `CreateOrUpdateCronJobByYAML` return the error naming that
kind; the only calls made are the opening of the file and the one decoding, so there
is no discovery, Get, Create or Patch, and the cluster state is untouched. -/
theorem wrong_kind_rejected {σ : Type} (c : Client σ) (osOpen : String → Except Err File)
    (ticks : Nat) (filepath : String) (s : σ) (f : File) (obj : Obj)
    (more : List (Except Err Obj))
    (hopen : osOpen filepath = .ok f) (hdocs : f.docs = .ok obj :: more)
    (hkind : obj.GetKind ≠ "CronJob") :
    CreateOrUpdateCronJobByYAML (some c) osOpen ticks filepath s =
      (some (Err.text ("kind must be cronjob, got: " ++ obj.GetKind)), s,
        [Event.openFile filepath, Event.decode (.ok obj)]) := by
  simp [CreateOrUpdateCronJobByYAML, hopen, hdocs, hkind]

/-- C8 at a concrete input: a file holding the Widget manifest. -/
theorem wrong_kind_rejected_witness :
    CreateOrUpdateCronJobByYAML (some (memClient sampleDiscovery))
        (fun _ => .ok ⟨[.ok sampleWidget], [.ok sampleWidget]⟩) 3 "widget.yaml" [] =
      (some (Err.text ("kind must be cronjob, got: " ++ sampleWidget.GetKind)), [],
        [Event.openFile "widget.yaml", Event.decode (.ok sampleWidget)]) :=
  wrong_kind_rejected (memClient sampleDiscovery) _ 3 "widget.yaml" []
    ⟨[.ok sampleWidget], [.ok sampleWidget]⟩ sampleWidget [] rfl rfl (by decide)

/-- C10: with a nil client the call returns the error "client is nil" and makes no
call at all, not even opening the file; with a client and a file that opens but holds
no document, the first decoding meets the end of the stream and the call returns the
error "failed to decode yaml: EOF" after the opening and that one decoding only, the
reconciler is not run and the cluster state is untouched. -/
theorem empty_file_and_nil_client {σ : Type} (c : Client σ) (osOpen : String → Except Err File)
    (ticks : Nat) (filepath : String) (s : σ) (f : File)
    (hopen : osOpen filepath = .ok f) (hdocs : f.docs = []) :
    CreateOrUpdateCronJobByYAML (none : Option (Client σ)) osOpen ticks filepath s =
      (some (Err.text "client is nil"), s, [])
    ∧ CreateOrUpdateCronJobByYAML (some c) osOpen ticks filepath s =
      (some (Err.text "failed to decode yaml: EOF"), s,
        [Event.openFile filepath, Event.decode (.error Err.EOF)]) := by
  constructor
  · simp [CreateOrUpdateCronJobByYAML]
  · simp [CreateOrUpdateCronJobByYAML, hopen, hdocs, Err.Error]

/-- C10 at a concrete input: an empty file. -/
theorem empty_file_and_nil_client_witness :
    CreateOrUpdateCronJobByYAML (none : Option (Client Store)) (fun _ => .ok ⟨[], []⟩) 3
        "empty.yaml" [] = (some (Err.text "client is nil"), [], [])
    ∧ CreateOrUpdateCronJobByYAML (some (memClient sampleDiscovery)) (fun _ => .ok ⟨[], []⟩) 3
        "empty.yaml" [] =
      (some (Err.text "failed to decode yaml: EOF"), [],
        [Event.openFile "empty.yaml", Event.decode (.error Err.EOF)]) :=
  empty_file_and_nil_client (memClient sampleDiscovery) _ 3 "empty.yaml" [] ⟨[], []⟩ rfl rfl

/-! ## Single attempts -/

/-- An attempt that finds the object and whose Patch is accepted ends the poll. -/
theorem condition_patch_ok {σ : Type} (c : Client σ) (transform : Transform)
    (gvr : GroupVersionResource) (ns name kind : String) (s s1 s2 : σ) (obj old updated : Obj)
    (hget : c.Get s gvr ns name = (.ok old, s1))
    (hpatch : c.Patch s1 gvr ns
        (applyTransform transform (some old) (obj.SetResourceVersion old.GetResourceVersion)).GetName
        (applyTransform transform (some old) (obj.SetResourceVersion old.GetResourceVersion))
      = (.ok updated, s2)) :
    condition c transform gvr ns name kind (s, obj) =
      ((true, none),
        (s2, applyTransform transform (some old) (obj.SetResourceVersion old.GetResourceVersion)),
        [Event.get gvr ns name (.ok old),
         Event.patch gvr ns
           (applyTransform transform (some old) (obj.SetResourceVersion old.GetResourceVersion)).GetName
           (applyTransform transform (some old) (obj.SetResourceVersion old.GetResourceVersion))
           (.ok updated)]) := by
  simp [condition, hget, Obj.MarshalJSON, hpatch]

/-- An attempt whose Patch is answered forbidden asks for another attempt and leaves
the transformed object in the variable `obj`. -/
theorem condition_patch_forbidden {σ : Type} (c : Client σ) (transform : Transform)
    (gvr : GroupVersionResource) (ns name kind : String) (s s1 s2 : σ) (obj old : Obj) (err : Err)
    (hget : c.Get s gvr ns name = (.ok old, s1))
    (hpatch : c.Patch s1 gvr ns
        (applyTransform transform (some old) (obj.SetResourceVersion old.GetResourceVersion)).GetName
        (applyTransform transform (some old) (obj.SetResourceVersion old.GetResourceVersion))
      = (.error err, s2))
    (hf : IsForbidden err = true) :
    condition c transform gvr ns name kind (s, obj) =
      ((false, none),
        (s2, applyTransform transform (some old) (obj.SetResourceVersion old.GetResourceVersion)),
        [Event.get gvr ns name (.ok old),
         Event.patch gvr ns
           (applyTransform transform (some old) (obj.SetResourceVersion old.GetResourceVersion)).GetName
           (applyTransform transform (some old) (obj.SetResourceVersion old.GetResourceVersion))
           (.error err)]) := by
  simp [condition, hget, Obj.MarshalJSON, hpatch, hf]

/-- Along a run of the client that reconciles one manifest in a single attempt, the
poll makes exactly the calls of that run and ends without error in its last state. -/
theorem PollImmediate_of_ReconciledAt {σ : Type} (c : Client σ) (transform : Transform)
    (ticks : Nat) (m : Obj) (rest : List (Except Err Obj)) (s s3 : σ) (chunk : List Event)
    (h : ReconciledAt c transform m s s3 chunk) :
    createOrUpdateFromReader c transform ticks (.ok m :: rest) s =
      ((createOrUpdateFromReader c transform ticks rest s3).1,
       (createOrUpdateFromReader c transform ticks rest s3).2.1,
       chunk ++ (createOrUpdateFromReader c transform ticks rest s3).2.2) := by
  obtain ⟨gvr, s1, s2, hres, hcase⟩ := h
  rcases hcase with ⟨old, updated, hg, hp, hchunk⟩ | ⟨err, created, hg, hnf, hc, hchunk⟩
  · have hcond := condition_patch_ok c transform gvr m.GetNamespace m.GetName m.GetKind
      s1 s2 s3 m old updated hg hp
    have hw := WaitFor_done _ ticks _ _ _ hcond
    rw [← PollImmediate_eq_WaitFor] at hw
    rw [createOrUpdateFromReader_cons_ok c transform ticks m rest s s1 gvr _ _ hres hw, hchunk]
    simp
  · have hcond := condition_create_ok c transform gvr m.GetNamespace m.GetName m.GetKind
      s1 s2 s3 m created err hg hnf hc
    have hw := WaitFor_done _ ticks _ _ _ hcond
    rw [← PollImmediate_eq_WaitFor] at hw
    rw [createOrUpdateFromReader_cons_ok c transform ticks m rest s s1 gvr _ _ hres hw, hchunk]
    simp

/-- The whole stream, along a run of the client that reconciles every manifest. -/
theorem createOrUpdateFromReader_of_ReconciledAll {σ : Type} (c : Client σ)
    (transform : Transform) (ticks : Nat) (ms : List Obj) (s s1 : σ)
    (chunks : List (List Event)) (h : ReconciledAll c transform ms s s1 chunks) :
    createOrUpdateFromReader c transform ticks (ms.map Except.ok) s =
      (none, s1, chunks.flatten ++ [Event.decode (.error Err.EOF)]) := by
  induction h with
  | nil s => simp [createOrUpdateFromReader]
  | cons hat _ ih =>
    rw [List.map_cons, PollImmediate_of_ReconciledAt c transform ticks _ _ _ _ _ hat, ih]
    simp

/-- C6: take any run of the client along which, manifest after manifest, the kind
resolves, the Get finds the object or reports not-found, and the Patch or the Create
that follows is accepted (`ReconciledAll`, from state `s` to state `s1`, the calls and
answers of each manifest in `chunks`).  Then the call on that stream returns no error,
ends in state `s1`, and its trace is exactly those calls, manifest by manifest in
stream order (decode, resolve, Get, accepted write), followed by the decoding that
meets the end of the stream: each manifest's write comes before the next manifest is
decoded.  The empty stream returns no error, leaves the state as it was and makes the
one end-of-stream decoding only.  Such a run exists from every state when the kinds of
the manifests resolve, every Get finds the object or reports not-found, and every
Create and Patch is accepted. -/
theorem stream_reconciled_in_order {σ : Type} (c : Client σ) (transform : Transform) (ticks : Nat)
    (ms : List Obj) (s s1 : σ) (chunks : List (List Event))
    (hrun : ReconciledAll c transform ms s s1 chunks) :
    createOrUpdateFromReader c transform ticks (ms.map Except.ok) s =
      (none, s1, chunks.flatten ++ [Event.decode (.error Err.EOF)])
    ∧ createOrUpdateFromReader c transform ticks [] s =
      (none, s, [Event.decode (.error Err.EOF)])
    ∧ ((∀ m ∈ ms, ∀ s0, ∃ gvr s2, c.ResourceForGVK s0 m.GroupVersionKind = (.ok gvr, s2)) →
       (∀ s0 gvr ns name, (∃ old s2, c.Get s0 gvr ns name = (.ok old, s2)) ∨
          (∃ err s2, c.Get s0 gvr ns name = (.error err, s2) ∧ IsNotFound err = true)) →
       (∀ s0 gvr ns obj, ∃ created s2, c.Create s0 gvr ns obj = (.ok created, s2)) →
       (∀ s0 gvr ns name data, ∃ updated s2, c.Patch s0 gvr ns name data = (.ok updated, s2)) →
       ∀ s0, ∃ s2 chunks2, ReconciledAll c transform ms s0 s2 chunks2) := by
  refine ⟨createOrUpdateFromReader_of_ReconciledAll c transform ticks ms s s1 chunks hrun,
    by simp [createOrUpdateFromReader], ?_⟩
  clear hrun
  intro hres hget hcreate hpatch
  induction ms with
  | nil => intro s0; exact ⟨s0, [], ReconciledAll.nil s0⟩
  | cons m ms ih =>
    intro s0
    obtain ⟨gvr, sa, hr⟩ := hres m (List.mem_cons_self m ms) s0
    have hone : ∃ sc chunk, ReconciledAt c transform m s0 sc chunk := by
      rcases hget sa gvr m.GetNamespace m.GetName with ⟨old, sb, hg⟩ | ⟨err, sb, hg, hnf⟩
      · obtain ⟨updated, sc, hp⟩ := hpatch sb gvr m.GetNamespace
          (applyTransform transform (some old) (m.SetResourceVersion old.GetResourceVersion)).GetName
          (applyTransform transform (some old) (m.SetResourceVersion old.GetResourceVersion))
        exact ⟨sc, _, gvr, sa, sb, hr, Or.inl ⟨old, updated, hg, hp, rfl⟩⟩
      · obtain ⟨created, sc, hc⟩ := hcreate sb gvr m.GetNamespace
          (applyTransform transform none (m.SetResourceVersion ""))
        exact ⟨sc, _, gvr, sa, sb, hr, Or.inr ⟨err, created, hg, hnf, hc, rfl⟩⟩
    obtain ⟨sc, chunk, hat⟩ := hone
    obtain ⟨s2, chunks2, hall⟩ := ih (fun m2 hm2 => hres m2 (List.mem_cons_of_mem m hm2)) sc
    exact ⟨s2, chunk :: chunks2, ReconciledAll.cons hat hall⟩

/-- C6 at a concrete input: the sample manifest twice in one stream, against the empty
in-memory cluster.  The first is created (its stale version cleared), the second finds
what the first created and patches it; the trace and the final store are given in full. -/
theorem stream_reconciled_in_order_witness :
    createOrUpdateFromReader (memClient sampleDiscovery) none 3
        ([sampleCronJob, sampleCronJob].map Except.ok) [] =
      (none,
        [((cronJobResource, "ops", "nightly"),
          mergePatch (sampleCronJob.SetResourceVersion "") (sampleCronJob.SetResourceVersion ""))],
        [[Event.decode (.ok sampleCronJob),
          Event.resolve sampleCronJob.GroupVersionKind (.ok cronJobResource),
          Event.get cronJobResource "ops" "nightly"
            (.error (Err.status .NotFound "not found: nightly")),
          Event.create cronJobResource "ops" (sampleCronJob.SetResourceVersion "")
            (.ok (sampleCronJob.SetResourceVersion ""))],
         [Event.decode (.ok sampleCronJob),
          Event.resolve sampleCronJob.GroupVersionKind (.ok cronJobResource),
          Event.get cronJobResource "ops" "nightly" (.ok (sampleCronJob.SetResourceVersion "")),
          Event.patch cronJobResource "ops" "nightly" (sampleCronJob.SetResourceVersion "")
            (.ok (mergePatch (sampleCronJob.SetResourceVersion "")
              (sampleCronJob.SetResourceVersion "")))]].flatten ++
          [Event.decode (.error Err.EOF)])
    ∧ createOrUpdateFromReader (memClient sampleDiscovery) none 3 [] [] =
      (none, [], [Event.decode (.error Err.EOF)]) :=
  have h := stream_reconciled_in_order (memClient sampleDiscovery) none 3
    [sampleCronJob, sampleCronJob] [] _ _
    (@ReconciledAll.cons _ _ _ _ _ _
      [((cronJobResource, "ops", "nightly"), sampleCronJob.SetResourceVersion "")] _ _ _
      ⟨cronJobResource, [], [], by decide,
        Or.inr ⟨Err.status .NotFound "not found: nightly", sampleCronJob.SetResourceVersion "",
          by decide, by decide, by decide, rfl⟩⟩
      (@ReconciledAll.cons _ _ _ _ _ _
        [((cronJobResource, "ops", "nightly"),
          mergePatch (sampleCronJob.SetResourceVersion "") (sampleCronJob.SetResourceVersion ""))]
        _ _ _
        ⟨cronJobResource,
          [((cronJobResource, "ops", "nightly"), sampleCronJob.SetResourceVersion "")],
          [((cronJobResource, "ops", "nightly"), sampleCronJob.SetResourceVersion "")],
          by decide,
          Or.inl ⟨sampleCronJob.SetResourceVersion "",
            mergePatch (sampleCronJob.SetResourceVersion "") (sampleCronJob.SetResourceVersion ""),
            by decide, by decide, by decide⟩⟩
        (ReconciledAll.nil _)))
  ⟨h.1, h.2.1⟩

/-! ## Retries -/

/-- C2, as the code has it: the live resource version is written onto the manifest
before the transform runs, so a transform that sets the resource version decides what
the payload carries.  Here the live object is at version 7 and the accepted Patch
carries the version the transform stamped. -/
theorem patch_version_set_by_transform :
    createOrUpdateFromReader alwaysAccepted (some stampVersion) 3 [.ok sampleCronJob] 0 =
      (none, 1,
        [Event.decode (.ok sampleCronJob),
         Event.resolve sampleCronJob.GroupVersionKind (.ok cronJobResource),
         Event.get cronJobResource "ops" "nightly" (.ok sampleLive),
         Event.patch cronJobResource "ops" "nightly"
           (stampVersion (some sampleLive) (sampleCronJob.SetResourceVersion "7")) (.ok sampleLive),
         Event.decode (.error Err.EOF)])
    ∧ (stampVersion (some sampleLive) (sampleCronJob.SetResourceVersion "7")).GetResourceVersion
        ≠ sampleLive.GetResourceVersion := by
  decide

/-- From attempt `j` on, along a run of the client in which the Patch calls of attempts
`j .. j+d-1` are refused and that of attempt `j+d` is accepted, the wait makes the
attempts `j .. j+d`, each on the object the one before left; the transform is optional. -/
theorem WaitFor_carried {σ : Type} (c : Client σ) (transform : Transform)
    (gvr : GroupVersionResource) (m : Obj) (states mid : Nat → σ) (live : Nat → Obj)
    (resp : Nat → Except Err Obj) (updated : Obj) (d : Nat) :
    ∀ (j extra : Nat),
      (∀ i, j ≤ i → i ≤ j + d →
        c.Get (states i) gvr m.GetNamespace m.GetName = (.ok (live i), mid i)) →
      (∀ i, j ≤ i → i ≤ j + d →
        c.Patch (mid i) gvr m.GetNamespace (carried transform live m (i + 1)).GetName
          (carried transform live m (i + 1)) = (resp i, states (i + 1))) →
      (∀ i, j ≤ i → i < j + d → ∃ err, resp i = .error err ∧ IsForbidden err = true) →
      resp (j + d) = .ok updated →
      WaitFor (condition c transform gvr m.GetNamespace m.GetName m.GetKind) (d + 1 + extra)
          (states j, carried transform live m j) =
        (none, (states (j + d + 1), carried transform live m (j + d + 1)),
          (List.range' j d).flatMap (patchAttempt gvr transform live resp m) ++
            [Event.get gvr m.GetNamespace m.GetName (.ok (live (j + d))),
             Event.patch gvr m.GetNamespace (carried transform live m (j + d + 1)).GetName
               (carried transform live m (j + d + 1)) (.ok updated)]) := by
  induction d with
  | zero =>
    intro j extra hget hpatch _ hok
    have hok2 : resp j = .ok updated := by simpa using hok
    have hc := condition_patch_ok c transform gvr m.GetNamespace m.GetName m.GetKind
      (states j) (mid j) (states (j + 1)) (carried transform live m j) (live j) updated
      (hget j (Nat.le_refl j) (by omega))
      (by
        show c.Patch (mid j) gvr m.GetNamespace (carried transform live m (j + 1)).GetName
          (carried transform live m (j + 1)) = _
        rw [hpatch j (Nat.le_refl j) (by omega), hok2])
    have h := WaitFor_done _ extra _ _ _ hc
    rw [show 0 + 1 + extra = extra + 1 by omega, h]
    simp [carried]
  | succ d ih =>
    intro j extra hget hpatch hforb hok
    obtain ⟨err, herr, hf⟩ := hforb j (Nat.le_refl j) (by omega)
    have hc := condition_patch_forbidden c transform gvr m.GetNamespace m.GetName m.GetKind
      (states j) (mid j) (states (j + 1)) (carried transform live m j) (live j) err
      (hget j (Nat.le_refl j) (by omega))
      (by
        show c.Patch (mid j) gvr m.GetNamespace (carried transform live m (j + 1)).GetName
          (carried transform live m (j + 1)) = _
        rw [hpatch j (Nat.le_refl j) (by omega), herr])
      hf
    have hrec := ih (j + 1) extra (fun i h1 h2 => hget i (by omega) (by omega))
      (fun i h1 h2 => hpatch i (by omega) (by omega))
      (fun i h1 h2 => hforb i (by omega) (by omega))
      (by rw [show j + 1 + d = j + (d + 1) by omega]; exact hok)
    have hstep : applyTransform transform (some (live j))
        ((carried transform live m j).SetResourceVersion (live j).GetResourceVersion) =
        carried transform live m (j + 1) := rfl
    rw [hstep] at hc
    rw [show d + 1 + 1 + extra = (d + 1 + extra) + 1 by omega, WaitFor_retry _ _ _ _ _ hc, hrec]
    rw [show j + 1 + d + 1 = j + (d + 1) + 1 by omega, show j + 1 + d = j + (d + 1) by omega]
    rw [List.range'_succ j d, List.flatMap_cons, ← herr]
    simp [patchAttempt]

/-- With a transform that is absent or keeps the resource version of the manifest it is
given, the object each attempt produces carries the version of the object it found. -/
theorem GetResourceVersion_carried (transform : Transform) (live : Nat → Obj) (m : Obj)
    (ht : ∀ f, transform = some f →
      ∀ old obj, (f old obj).GetResourceVersion = obj.GetResourceVersion) (i : Nat) :
    (carried transform live m (i + 1)).GetResourceVersion = (live i).GetResourceVersion := by
  cases transform with
  | none =>
    exact GetResourceVersion_SetResourceVersion _ _
  | some f =>
    show (f (some (live i)) _).GetResourceVersion = _
    rw [ht f rfl]
    exact GetResourceVersion_SetResourceVersion _ _

/-- C2 (amended): let the kind of the first manifest of a stream resolve, and take any
run of the client in which attempt `i` finds the object `live i`, the Patch calls of
the first `k` attempts are answered forbidden and that of attempt `k + 1` is accepted
with `updated`, `k` being at most `ticks`; let the transform be absent or leave the
resource version of the manifest it is given unchanged.  Then the manifest's calls are
exactly: the `k` refused attempts (found Gets and refused Patches only), then the Get
that finds `live k` and one accepted Patch, the only accepted Patch of the manifest,
whose payload is the object carried through the attempts (live version written on it
before the transform is applied) and carries the resource version of `live k`, the
object the Get of the same attempt returned.  The call then goes on with the rest of
the stream from the state that Patch left. -/
theorem patch_carries_live_version {σ : Type} (c : Client σ) (transform : Transform)
    (k ticks : Nat) (m : Obj) (rest : List (Except Err Obj)) (gvr : GroupVersionResource)
    (s : σ) (states mid : Nat → σ) (live : Nat → Obj) (resp : Nat → Except Err Obj)
    (updated : Obj)
    (hres : c.ResourceForGVK s m.GroupVersionKind = (.ok gvr, states 0))
    (hget : ∀ i, i ≤ k →
      c.Get (states i) gvr m.GetNamespace m.GetName = (.ok (live i), mid i))
    (hpatch : ∀ i, i ≤ k →
      c.Patch (mid i) gvr m.GetNamespace (carried transform live m (i + 1)).GetName
        (carried transform live m (i + 1)) = (resp i, states (i + 1)))
    (hforb : ∀ i, i < k → ∃ err, resp i = .error err ∧ IsForbidden err = true)
    (hok : resp k = .ok updated) (hk : k ≤ ticks)
    (ht : ∀ f, transform = some f →
      ∀ old obj, (f old obj).GetResourceVersion = obj.GetResourceVersion) :
    createOrUpdateFromReader c transform ticks (.ok m :: rest) s =
      ((createOrUpdateFromReader c transform ticks rest (states (k + 1))).1,
       (createOrUpdateFromReader c transform ticks rest (states (k + 1))).2.1,
       Event.decode (.ok m) :: Event.resolve m.GroupVersionKind (.ok gvr) ::
         ((List.range k).flatMap (patchAttempt gvr transform live resp m) ++
          [Event.get gvr m.GetNamespace m.GetName (.ok (live k)),
           Event.patch gvr m.GetNamespace (carried transform live m (k + 1)).GetName
             (carried transform live m (k + 1)) (.ok updated)] ++
          (createOrUpdateFromReader c transform ticks rest (states (k + 1))).2.2))
    ∧ (∀ e ∈ (List.range k).flatMap (patchAttempt gvr transform live resp m),
        e.isRetry = true ∧ e.isWriteOk = false)
    ∧ (carried transform live m (k + 1)).GetResourceVersion = (live k).GetResourceVersion := by
  refine ⟨?_, ?_, GetResourceVersion_carried transform live m ht k⟩
  · have hw := WaitFor_carried c transform gvr m states mid live resp updated k 0 (ticks - k)
      (fun i _ h => hget i (by omega)) (fun i _ h => hpatch i (by omega))
      (fun i _ h => hforb i (by omega)) (by simpa using hok)
    rw [show k + 1 + (ticks - k) = ticks + 1 by omega, ← PollImmediate_eq_WaitFor] at hw
    have hw2 : PollImmediate ticks
        (condition c transform gvr m.GetNamespace m.GetName m.GetKind) (states 0, m) =
        (none, (states (0 + k + 1), carried transform live m (0 + k + 1)),
          (List.range' 0 k).flatMap (patchAttempt gvr transform live resp m) ++
            [Event.get gvr m.GetNamespace m.GetName (.ok (live (0 + k))),
             Event.patch gvr m.GetNamespace (carried transform live m (0 + k + 1)).GetName
               (carried transform live m (0 + k + 1)) (.ok updated)]) := hw
    rw [createOrUpdateFromReader_cons_ok c transform ticks m rest s (states 0) gvr _ _ hres hw2]
    simp [List.range_eq_range']
  · intro e he
    obtain ⟨i, hi, hei⟩ := List.mem_flatMap.mp he
    have hik : i < k := List.mem_range.mp hi
    obtain ⟨err, herr, hf⟩ := hforb i hik
    simp only [patchAttempt, herr, List.mem_cons, List.mem_singleton, List.not_mem_nil,
      or_false] at hei
    rcases hei with h | h <;> subst h <;> simp [Event.isRetry, Event.isWriteOk, hf]

/-- C2 (amended) at a concrete input: two refusals within three ticks, and a transform
that adds a label.  The accepted Patch is the third; it carries version 7, the version
of the live object. -/
theorem patch_carries_live_version_witness :
    createOrUpdateFromReader forbiddenTwice (some addLabel) 3 (.ok sampleCronJob :: []) 0 =
      ((createOrUpdateFromReader forbiddenTwice (some addLabel) 3 [] (2 + 1)).1,
       (createOrUpdateFromReader forbiddenTwice (some addLabel) 3 [] (2 + 1)).2.1,
       Event.decode (.ok sampleCronJob) ::
         Event.resolve sampleCronJob.GroupVersionKind (.ok cronJobResource) ::
         ((List.range 2).flatMap
            (patchAttempt cronJobResource (some addLabel) (fun _ => sampleLive)
              (fun i => if i < 2 then .error sampleForbidden else .ok sampleLive) sampleCronJob) ++
          [Event.get cronJobResource sampleCronJob.GetNamespace sampleCronJob.GetName
             (.ok sampleLive),
           Event.patch cronJobResource sampleCronJob.GetNamespace
             (carried (some addLabel) (fun _ => sampleLive) sampleCronJob (2 + 1)).GetName
             (carried (some addLabel) (fun _ => sampleLive) sampleCronJob (2 + 1))
             (.ok sampleLive)] ++
          (createOrUpdateFromReader forbiddenTwice (some addLabel) 3 [] (2 + 1)).2.2))
    ∧ (carried (some addLabel) (fun _ => sampleLive) sampleCronJob (2 + 1)).GetResourceVersion
        = "7" :=
  have h := patch_carries_live_version forbiddenTwice (some addLabel) 2 3 sampleCronJob []
    cronJobResource 0 id id (fun _ => sampleLive)
    (fun i => if i < 2 then .error sampleForbidden else .ok sampleLive) sampleLive
    (by decide) (fun _ _ => rfl) (fun _ _ => rfl)
    (fun i hi => ⟨sampleForbidden, by simp [hi], rfl⟩) (by decide) (by decide)
    (fun f hf old obj => by cases hf; rfl)
  ⟨h.1, h.2.2.trans (by decide)⟩

/-! ## Failures that abort -/

theorem lookup_filter_of_none (o : Obj) (p : String × String → Bool) (k : String)
    (h : o.lookup k = none) : (o.filter p).lookup k = none := by
  induction o with
  | nil => rfl
  | cons kv o ih =>
    obtain ⟨a, b⟩ := kv
    rw [List.lookup_cons] at h
    cases hk : (k == a) with
    | true => rw [hk] at h; cases h
    | false =>
      rw [hk] at h
      rw [List.filter_cons]
      split
      · rw [List.lookup_cons, hk]; exact ih h
      · exact ih h

theorem lookup_filter_unmentioned (live data : Obj) (k : String) (h : data.lookup k = none) :
    (live.filter (fun kv => (data.lookup kv.1).isNone)).lookup k = live.lookup k := by
  induction live with
  | nil => rfl
  | cons kv live ih =>
    obtain ⟨a, b⟩ := kv
    rw [List.filter_cons]
    cases hk : (k == a) with
    | true =>
      have hka : k = a := by simpa using hk
      subst hka
      simp [h, List.lookup_cons]
    | false =>
      split
      · rw [List.lookup_cons, List.lookup_cons, hk]; exact ih
      · rw [List.lookup_cons, hk]; exact ih

/-- Merge-patch, field by field: a field of the payload wins, a field the payload does
not mention keeps the live value. -/
theorem lookup_mergePatch (live data : Obj) (k : String) :
    (mergePatch live data).lookup k =
      match data.lookup k with
      | some v => some v
      | none => live.lookup k := by
  rw [mergePatch, List.lookup_append]
  cases h : data.lookup k with
  | some v => simp
  | none => simpa using lookup_filter_unmentioned live data k h

theorem GetName_SetResourceVersion_empty (o : Obj) :
    (o.SetResourceVersion "").GetName = o.GetName := by
  simp only [Obj.SetResourceVersion, Obj.GetName, Obj.field, if_true]
  rw [lookup_filter_other o "metadata.resourceVersion" "metadata.name" (by decide)]

theorem SetResourceVersion_empty_idem (o : Obj) :
    (o.SetResourceVersion "").SetResourceVersion "" = o.SetResourceVersion "" := by
  simp [Obj.SetResourceVersion, List.filter_filter]

/-- C7, as the code has it: a field of the manifest that never reaches the cluster.
The sample manifest carries resource version 99; after it is applied twice to an empty
in-memory cluster the live object holds no resource version at all. -/
theorem stale_version_not_applied :
    sampleCronJob.lookup "metadata.resourceVersion" = some "99"
    ∧ ((createOrUpdateFromReader (memClient sampleDiscovery) none 3 [.ok sampleCronJob]
          (createOrUpdateFromReader (memClient sampleDiscovery) none 3 [.ok sampleCronJob] []).2.1).2.1.lookup
        (cronJobResource, "ops", "nightly")).map
          (fun live => live.lookup "metadata.resourceVersion") = some none := by
  decide

/-- C7 (amended): on the in-memory cluster, with the manifest's kind resolved and its
object absent, the first run returns no error and makes one Create (of the manifest
with its resource version cleared) and no Patch; the second run on the same manifest,
from the state the first left, returns no error and makes one Patch and no Create.
After the second run every field of the manifest other than the resource version has
the manifest's value on the live object, and every field the manifest does not have is
as it was on the live object before the second run. -/
theorem apply_twice_creates_then_patches (disc : GroupVersionKind → Except Err GroupVersionResource)
    (ticks : Nat) (m : Obj) (gvr : GroupVersionResource) (store : Store)
    (hres : disc m.GroupVersionKind = .ok gvr)
    (habsent : store.lookup (gvr, m.GetNamespace, m.GetName) = none) :
    createOrUpdateFromReader (memClient disc) none ticks [.ok m] store =
      (none, ((gvr, m.GetNamespace, m.GetName), m.SetResourceVersion "") :: store,
        [Event.decode (.ok m), Event.resolve m.GroupVersionKind (.ok gvr),
         Event.get gvr m.GetNamespace m.GetName
           (.error (Err.status .NotFound ("not found: " ++ m.GetName))),
         Event.create gvr m.GetNamespace (m.SetResourceVersion "") (.ok (m.SetResourceVersion "")),
         Event.decode (.error Err.EOF)])
    ∧ createOrUpdateFromReader (memClient disc) none ticks [.ok m]
        (((gvr, m.GetNamespace, m.GetName), m.SetResourceVersion "") :: store) =
      (none,
        ((gvr, m.GetNamespace, m.GetName),
            mergePatch (m.SetResourceVersion "") (m.SetResourceVersion "")) ::
          (((gvr, m.GetNamespace, m.GetName), m.SetResourceVersion "") :: store).filter
            (fun e => e.1 ≠ (gvr, m.GetNamespace, m.GetName)),
        [Event.decode (.ok m), Event.resolve m.GroupVersionKind (.ok gvr),
         Event.get gvr m.GetNamespace m.GetName (.ok (m.SetResourceVersion "")),
         Event.patch gvr m.GetNamespace m.GetName (m.SetResourceVersion "")
           (.ok (mergePatch (m.SetResourceVersion "") (m.SetResourceVersion ""))),
         Event.decode (.error Err.EOF)])
    ∧ (∀ k v, k ≠ "metadata.resourceVersion" → m.lookup k = some v →
        (mergePatch (m.SetResourceVersion "") (m.SetResourceVersion "")).lookup k = some v)
    ∧ (∀ k, m.lookup k = none →
        (mergePatch (m.SetResourceVersion "") (m.SetResourceVersion "")).lookup k =
          (m.SetResourceVersion "").lookup k) := by
  have hname := GetName_SetResourceVersion_empty m
  have hrv := GetResourceVersion_SetResourceVersion_empty m
  have hidem := SetResourceVersion_empty_idem m
  refine ⟨?_, ?_, ?_, ?_⟩
  · have hg : (memClient disc).Get store gvr m.GetNamespace m.GetName =
        (.error (Err.status .NotFound ("not found: " ++ m.GetName)), store) := by
      simp [memClient, habsent]
    have hc : (memClient disc).Create store gvr m.GetNamespace
        (applyTransform none none (m.SetResourceVersion "")) =
        (.ok (m.SetResourceVersion ""),
          ((gvr, m.GetNamespace, m.GetName), m.SetResourceVersion "") :: store) := by
      simp [memClient, applyTransform, hname, habsent]
    have hcond := condition_create_ok (memClient disc) none gvr m.GetNamespace m.GetName m.GetKind
      store store _ m _ _ hg rfl hc
    have hp := WaitFor_done _ ticks _ _ _ hcond
    rw [← PollImmediate_eq_WaitFor] at hp
    rw [createOrUpdateFromReader_cons_ok (memClient disc) none ticks m [] store store gvr _ _
      (by simp [memClient, hres]) hp]
    simp [createOrUpdateFromReader, applyTransform]
  · have hg : (memClient disc).Get
        (((gvr, m.GetNamespace, m.GetName), m.SetResourceVersion "") :: store)
        gvr m.GetNamespace m.GetName =
        (.ok (m.SetResourceVersion ""),
          ((gvr, m.GetNamespace, m.GetName), m.SetResourceVersion "") :: store) := by
      simp [memClient, List.lookup_cons]
    have hobj : applyTransform none (some (m.SetResourceVersion ""))
        (m.SetResourceVersion (m.SetResourceVersion "").GetResourceVersion) =
        m.SetResourceVersion "" := by
      simp [applyTransform, hrv]
    have hpatch : (memClient disc).Patch
        (((gvr, m.GetNamespace, m.GetName), m.SetResourceVersion "") :: store) gvr m.GetNamespace
        (applyTransform none (some (m.SetResourceVersion ""))
          (m.SetResourceVersion (m.SetResourceVersion "").GetResourceVersion)).GetName
        (applyTransform none (some (m.SetResourceVersion ""))
          (m.SetResourceVersion (m.SetResourceVersion "").GetResourceVersion)) =
        (.ok (mergePatch (m.SetResourceVersion "") (m.SetResourceVersion "")),
          ((gvr, m.GetNamespace, m.GetName),
              mergePatch (m.SetResourceVersion "") (m.SetResourceVersion "")) ::
            (((gvr, m.GetNamespace, m.GetName), m.SetResourceVersion "") :: store).filter
              (fun e => e.1 ≠ (gvr, m.GetNamespace, m.GetName))) := by
      rw [hobj, hname]
      simp [memClient, List.lookup_cons]
    have hcond := condition_patch_ok (memClient disc) none gvr m.GetNamespace m.GetName m.GetKind
      _ _ _ m _ _ hg hpatch
    have hp := WaitFor_done _ ticks _ _ _ hcond
    rw [← PollImmediate_eq_WaitFor] at hp
    rw [createOrUpdateFromReader_cons_ok (memClient disc) none ticks m [] _ _ gvr _ _
      (by simp [memClient, hres]) hp]
    rw [hobj, hname]
    simp [createOrUpdateFromReader]
  · intro k v hk hv
    rw [lookup_mergePatch]
    have h1 : (m.SetResourceVersion "").lookup k = some v := by
      simp only [Obj.SetResourceVersion, if_true]
      rw [lookup_filter_other m "metadata.resourceVersion" k hk]; exact hv
    rw [h1]
  · intro k hk
    rw [lookup_mergePatch]
    have h1 : (m.SetResourceVersion "").lookup k = none := by
      simp only [Obj.SetResourceVersion, if_true]
      exact lookup_filter_of_none m _ k hk
    rw [h1]

/-- C7 (amended) at a concrete input: the sample manifest applied twice to an empty
in-memory cluster. -/
theorem apply_twice_creates_then_patches_witness :
    createOrUpdateFromReader (memClient sampleDiscovery) none 3 [.ok sampleCronJob] [] =
      (none,
        ((cronJobResource, sampleCronJob.GetNamespace, sampleCronJob.GetName),
          sampleCronJob.SetResourceVersion "") :: [],
        [Event.decode (.ok sampleCronJob),
         Event.resolve sampleCronJob.GroupVersionKind (.ok cronJobResource),
         Event.get cronJobResource sampleCronJob.GetNamespace sampleCronJob.GetName
           (.error (Err.status .NotFound ("not found: " ++ sampleCronJob.GetName))),
         Event.create cronJobResource sampleCronJob.GetNamespace
           (sampleCronJob.SetResourceVersion "") (.ok (sampleCronJob.SetResourceVersion "")),
         Event.decode (.error Err.EOF)])
    ∧ (∀ k v, k ≠ "metadata.resourceVersion" → sampleCronJob.lookup k = some v →
        (mergePatch (sampleCronJob.SetResourceVersion "")
          (sampleCronJob.SetResourceVersion "")).lookup k = some v) :=
  ⟨(apply_twice_creates_then_patches sampleDiscovery 3 sampleCronJob cronJobResource []
      (by decide) (by decide)).1,
   (apply_twice_creates_then_patches sampleDiscovery 3 sampleCronJob cronJobResource []
      (by decide) (by decide)).2.2.1⟩


/-! ## The transform across retries -/

/-- From attempt `j` on, along a run of the client in which the Patch calls of attempts
`j .. j+d-1` are refused and that of attempt `j+d` is accepted, the wait makes the
attempts `j .. j+d`, each on the object the one before left. -/
theorem WaitFor_trajectory {σ : Type} (c : Client σ) (f : Option Obj → Obj → Obj)
    (gvr : GroupVersionResource) (m : Obj) (states mid : Nat → σ) (live : Nat → Obj)
    (resp : Nat → Except Err Obj) (updated : Obj) (d : Nat) :
    ∀ (j extra : Nat),
      (∀ i, j ≤ i → i ≤ j + d →
        c.Get (states i) gvr m.GetNamespace m.GetName = (.ok (live i), mid i)) →
      (∀ i, j ≤ i → i ≤ j + d →
        c.Patch (mid i) gvr m.GetNamespace (retried f live m (i + 1)).GetName
          (retried f live m (i + 1)) = (resp i, states (i + 1))) →
      (∀ i, j ≤ i → i < j + d → ∃ err, resp i = .error err ∧ IsForbidden err = true) →
      resp (j + d) = .ok updated →
      WaitFor (condition c (some f) gvr m.GetNamespace m.GetName m.GetKind) (d + 1 + extra)
          (states j, retried f live m j) =
        (none, (states (j + d + 1), retried f live m (j + d + 1)),
          (List.range' j (d + 1)).flatMap (attemptEvents gvr f live resp m)) := by
  induction d with
  | zero =>
    intro j extra hget hpatch _ hok
    have hok2 : resp j = .ok updated := by simpa using hok
    have hc := condition_patch_ok c (some f) gvr m.GetNamespace m.GetName m.GetKind
      (states j) (mid j) (states (j + 1)) (retried f live m j) (live j) updated
      (hget j (Nat.le_refl j) (by omega))
      (by
        show c.Patch (mid j) gvr m.GetNamespace (retried f live m (j + 1)).GetName
          (retried f live m (j + 1)) = _
        rw [hpatch j (Nat.le_refl j) (by omega), hok2])
    have h := WaitFor_done _ extra _ _ _ hc
    rw [show 0 + 1 + extra = extra + 1 by omega, h]
    simp [attemptEvents, retried, applyTransform, hok2]
  | succ d ih =>
    intro j extra hget hpatch hforb hok
    obtain ⟨err, herr, hf⟩ := hforb j (Nat.le_refl j) (by omega)
    have hc := condition_patch_forbidden c (some f) gvr m.GetNamespace m.GetName m.GetKind
      (states j) (mid j) (states (j + 1)) (retried f live m j) (live j) err
      (hget j (Nat.le_refl j) (by omega))
      (by
        show c.Patch (mid j) gvr m.GetNamespace (retried f live m (j + 1)).GetName
          (retried f live m (j + 1)) = _
        rw [hpatch j (Nat.le_refl j) (by omega), herr])
      hf
    have hrec := ih (j + 1) extra (fun i h1 h2 => hget i (by omega) (by omega))
      (fun i h1 h2 => hpatch i (by omega) (by omega))
      (fun i h1 h2 => hforb i (by omega) (by omega))
      (by rw [show j + 1 + d = j + (d + 1) by omega]; exact hok)
    have hstep : applyTransform (some f) (some (live j))
        ((retried f live m j).SetResourceVersion (live j).GetResourceVersion) =
        retried f live m (j + 1) := rfl
    rw [hstep] at hc
    rw [show d + 1 + 1 + extra = (d + 1 + extra) + 1 by omega, WaitFor_retry _ _ _ _ _ hc, hrec]
    rw [show j + 1 + d + 1 = j + (d + 1) + 1 by omega]
    rw [List.range'_succ j (d + 1), List.flatMap_cons, ← herr]
    rfl

/-- C9: let a transform `f` be supplied and the kind of the first manifest resolve, and
take any run of the client in which attempt `i` finds the object `live i`, the Patch
calls of the first `k` attempts are answered forbidden and that of attempt `k + 1` is
accepted, with `k` at most `ticks`.  Then the manifest's calls are these `k + 1`
attempts, attempt `i` making its Get under the name of the decoded manifest and its
Patch under the name of, and with the payload, `retried f live m (i + 1)`: the
transform applied `i + 1` times in sequence, each time to the object the previous
attempt left, with the resource version overwritten by that of the object just fetched.
The call then goes on with the rest of the stream.  For a transform that is not
idempotent the payload therefore changes with the number of retries, and the Get and
the Patch of one attempt can address different names: `renameWithMark` gives both. -/
theorem transform_chained_over_retries {σ : Type} (c : Client σ) (f : Option Obj → Obj → Obj)
    (k ticks : Nat) (m : Obj) (rest : List (Except Err Obj)) (gvr : GroupVersionResource)
    (s : σ) (states mid : Nat → σ) (live : Nat → Obj) (resp : Nat → Except Err Obj)
    (updated : Obj)
    (hres : c.ResourceForGVK s m.GroupVersionKind = (.ok gvr, states 0))
    (hget : ∀ i, i ≤ k →
      c.Get (states i) gvr m.GetNamespace m.GetName = (.ok (live i), mid i))
    (hpatch : ∀ i, i ≤ k →
      c.Patch (mid i) gvr m.GetNamespace (retried f live m (i + 1)).GetName
        (retried f live m (i + 1)) = (resp i, states (i + 1)))
    (hforb : ∀ i, i < k → ∃ err, resp i = .error err ∧ IsForbidden err = true)
    (hok : resp k = .ok updated) (hk : k ≤ ticks) :
    createOrUpdateFromReader c (some f) ticks (.ok m :: rest) s =
      ((createOrUpdateFromReader c (some f) ticks rest (states (k + 1))).1,
       (createOrUpdateFromReader c (some f) ticks rest (states (k + 1))).2.1,
       Event.decode (.ok m) :: Event.resolve m.GroupVersionKind (.ok gvr) ::
         ((List.range (k + 1)).flatMap (attemptEvents gvr f live resp m) ++
          (createOrUpdateFromReader c (some f) ticks rest (states (k + 1))).2.2))
    ∧ retried renameWithMark (fun _ => sampleLive) sampleCronJob 1 ≠
        retried renameWithMark (fun _ => sampleLive) sampleCronJob 2
    ∧ (retried renameWithMark (fun _ => sampleLive) sampleCronJob 1).GetName ≠
        sampleCronJob.GetName := by
  refine ⟨?_, by decide, by decide⟩
  have hw := WaitFor_trajectory c f gvr m states mid live resp updated k 0 (ticks - k)
    (fun i _ h => hget i (by omega)) (fun i _ h => hpatch i (by omega))
    (fun i _ h => hforb i (by omega)) (by simpa using hok)
  rw [show k + 1 + (ticks - k) = ticks + 1 by omega, ← PollImmediate_eq_WaitFor] at hw
  have hw2 : PollImmediate ticks
      (condition c (some f) gvr m.GetNamespace m.GetName m.GetKind) (states 0, m) =
      (none, (states (0 + k + 1), retried f live m (0 + k + 1)),
        (List.range' 0 (k + 1)).flatMap (attemptEvents gvr f live resp m)) := hw
  rw [createOrUpdateFromReader_cons_ok c (some f) ticks m rest s (states 0) gvr _ _ hres hw2]
  simp [List.range_eq_range']

/-- C9 at a concrete input: two refusals within three ticks and the renaming transform.
The three Gets ask for "nightly"; the Patches go to "nightly+", "nightly++" and
"nightly+++". -/
theorem transform_chained_over_retries_witness :
    (createOrUpdateFromReader forbiddenTwice (some renameWithMark) 3 (.ok sampleCronJob :: []) 0).2.2 =
      Event.decode (.ok sampleCronJob) ::
        Event.resolve sampleCronJob.GroupVersionKind (.ok cronJobResource) ::
        ((List.range (2 + 1)).flatMap
            (attemptEvents cronJobResource renameWithMark (fun _ => sampleLive)
              (fun i => if i < 2 then .error sampleForbidden else .ok sampleLive) sampleCronJob) ++
          [Event.decode (.error Err.EOF)])
    ∧ (retried renameWithMark (fun _ => sampleLive) sampleCronJob 3).GetName = "nightly+++" := by
  have h := (transform_chained_over_retries forbiddenTwice renameWithMark 2 3
    sampleCronJob [] cronJobResource 0 id id (fun _ => sampleLive)
    (fun i => if i < 2 then .error sampleForbidden else .ok sampleLive) sampleLive (by decide)
    (fun i _ => rfl) (fun i _ => rfl)
    (fun i hi => ⟨sampleForbidden, by simp [hi], rfl⟩) (by decide) (by decide)).1
  refine ⟨?_, by decide⟩
  have h2 := congrArg (fun r => r.2.2) h
  exact h2

end cronjob
